import Mathlib

/-!
Verification development for the Bernoulli multi-armed-bandit IDS engine
(BetaBernoulliMAB in BernoulliMAB.py).

The numeric arrays of the source are modelled over the rationals: every
quantity the source computes with numpy double arithmetic is an exact
field expression here, so the algebraic structure of the code (which
factors enter a product, which exponent goes on which term, strict versus
non-strict threshold comparisons, which entries of an array a loop writes)
is reproduced faithfully while staying executable and decidable.

External collaborators that the bandit loop consumes (the random reward
draws of update_lists, the random tie-breaking of rd_argmax and IDSAction,
the posterior sampling of np.random.beta) are supplied as explicit oracle
functions, matching the spec which places them outside the core boundary.
-/

namespace BernoulliMAB

/-- The first index of Fin K, used where numpy starts a scan at index 0. -/
def i0 (K : ℕ) [NeZero K] : Fin K := ⟨0, Nat.pos_of_ne_zero (NeZero.ne K)⟩

/-- np.max over a one-dimensional array: a left fold of max over all
indices, starting from the entry at index 0. -/
def maxQ {K : ℕ} [NeZero K] (v : Fin K → ℚ) : ℚ :=
  (List.finRange K).foldl (fun m i => max m (v i)) (v (i0 K))

/-- np.argmax over a one-dimensional array: the first index attaining the
maximum, obtained by a left fold that replaces the current best index only
on a strict improvement. -/
def np_argmax {K : ℕ} [NeZero K] (v : Fin K → ℚ) : Fin K :=
  (List.finRange K).foldl (fun b i => if v b < v i then i else b) (i0 K)

/-- The confidence threshold fixed in the constructor: self.threshold = 0.99. -/
def threshold : ℚ := 99 / 100

/-- Lookup in the factorial table built by fact_list: entry i holds i!. -/
def fact_list (i : ℕ) : ℚ := (Nat.factorial i : ℚ)

/-- The grid of init_approx: np.linspace(1/N, 1, N), whose j-th point is
(j+1)/N. -/
def X (N : ℕ) (j : Fin N) : ℚ := ((j : ℕ) + 1) / N

/-- np.cumsum over a length-N array: entry j is the sum of the entries at
indices 0..j. -/
def cumsum {N : ℕ} (v : Fin N → ℚ) (j : Fin N) : ℚ :=
  ∑ i in Finset.range ((j : ℕ) + 1), if h : i < N then v ⟨i, h⟩ else 0

/-- The per-arm grid arrays maintained by the approximation: the density
values f, the cumulative arrays F and G, and the normalizing constants B.
X is shared and fixed, so it is kept outside the state. -/
structure GridState (K N : ℕ) where
  f : Fin K → Fin N → ℚ
  F : Fin K → Fin N → ℚ
  G : Fin K → Fin N → ℚ
  B : Fin K → ℚ

/-- The Beta normalizing constant of init_approx:
B = fact[beta_1 - 1] * fact[beta_2 - 1] / fact[beta_1 + beta_2 - 1]. -/
def Bconst (b1 b2 : ℕ) : ℚ :=
  fact_list (b1 - 1) * fact_list (b2 - 1) / fact_list (b1 + b2 - 1)

/-- The density row of init_approx:
f = X ** (beta_1 - 1) * (1 - X) ** (beta_2 - 1) / B. -/
def f_init (N : ℕ) (b1 b2 : ℕ) (j : Fin N) : ℚ :=
  X N j ^ (b1 - 1) * (1 - X N j) ^ (b2 - 1) / Bconst b1 b2

/-- init_approx: from the integer Beta parameters of each arm, build the
density rows, the cumulative arrays F = (f/N).cumsum and
G = (f*X/N).cumsum, and the normalizing constants. -/
def init_approx (K N : ℕ) (b1 b2 : Fin K → ℕ) : GridState K N where
  f := fun k => f_init N (b1 k) (b2 k)
  F := fun k => cumsum (fun j => f_init N (b1 k) (b2 k) j / N)
  G := fun k => cumsum (fun j => f_init N (b1 k) (b2 k) j * X N j / N)
  B := fun k => Bconst (b1 k) (b2 k)

/-- update_approx: closed-form update of the pulled arm after observing
reward y, where a and b are the pre-update Beta parameters beta[0] and
beta[1] of that arm. The source mutates in order f, G, F, B, so G is
computed from the not-yet-updated F, and all right-hand sides read the
pre-call arrays. -/
def update_approx {K N : ℕ} (arm : Fin K) (y : ℚ) (a b : ℕ)
    (s : GridState K N) : GridState K N where
  f := Function.update s.f arm (fun j =>
    (X N j * y + (1 - X N j) * (1 - y)) * ((a : ℚ) + b) / ((a : ℚ) * y + b * (1 - y))
      * s.f arm j)
  G := Function.update s.G arm (fun j =>
    (a : ℚ) / ((a : ℚ) + b)
      * (s.F arm j - X N j ^ a * (1 - X N j) ^ b / a / s.B arm))
  F := Function.update s.F arm (fun j =>
    s.F arm j + (if y = 0 then (1 : ℚ) else -1)
      * X N j ^ a * (1 - X N j) ^ b / ((a : ℚ) * y + b * (1 - y)) / s.B arm)
  B := Function.update s.B arm
    (s.B arm * ((a : ℚ) * y + b * (1 - y)) / ((a : ℚ) + b))

/-- The triple product accumulated by IR_approx: prod_F1[a, ap] starts from
ones, multiplies in F[app] exactly when a != app and app != ap, and is then
scaled by f[a]/N. -/
def prod_F1 {K N : ℕ} (s : GridState K N) (a ap : Fin K) (j : Fin N) : ℚ :=
  (∏ app in Finset.univ.filter (fun app => a ≠ app ∧ app ≠ ap), s.F app j)
    * s.f a j / N

/-- p_star[a] of IR_approx: the sum over the grid of prod_F1[a, a]. -/
def p_starQ {K N : ℕ} (s : GridState K N) (a : Fin K) : ℚ :=
  ∑ j, prod_F1 s a a j

/-- maap of IR_approx: entry (r, c) is set from prod_F1[c, r];
off the diagonal it is (prod_F1[c, r] * G[r]).sum() / p_star[c], and on the
diagonal (prod_F1[c, c] * X).sum() / p_star[c]. -/
def maapQ {K N : ℕ} (s : GridState K N) (r c : Fin K) : ℚ :=
  if c ≠ r then (∑ j, prod_F1 s c r j * s.G r j) / p_starQ s c
  else (∑ j, prod_F1 s c c j * X N j) / p_starQ s c

/-- Casts of factorials are nonzero in the rationals. -/
theorem fact_cast_ne (n : ℕ) : ((Nat.factorial n : ℕ) : ℚ) ≠ 0 :=
  Nat.cast_ne_zero.mpr (Nat.factorial_ne_zero n)

/-- C1 (counterexample). At N = 100, one arm with the uniform prior
Beta(1, 1) and reward y = 1, the F array produced by update_approx differs
from the F array of a from-scratch init_approx with the post-update
parameters (2, 1) by more than 1e-6 relative error at grid point 0: the
incremental value is 1/10000, the from-scratch value is 2/10000. -/
theorem C1_update_F_tolerance_counterexample :
    ¬ |(update_approx (K := 1) (N := 100) 0 1 1 1
        (init_approx 1 100 (fun _ => 1) (fun _ => 1))).F 0 ⟨0, by norm_num⟩
      - (init_approx 1 100 (fun _ => 2) (fun _ => 1)).F 0 ⟨0, by norm_num⟩|
      ≤ (1 / 1000000)
        * |(init_approx 1 100 (fun _ => 2) (fun _ => 1)).F 0 ⟨0, by norm_num⟩| := by
  have h1 : (update_approx (K := 1) (N := 100) 0 1 1 1
      (init_approx 1 100 (fun _ => 1) (fun _ => 1))).F 0 ⟨0, by norm_num⟩
      = 1 / 10000 := by
    simp [update_approx, init_approx, cumsum, f_init, Bconst, fact_list, X,
      Function.update, Nat.factorial]
    norm_num
  have h2 : (init_approx 1 100 (fun _ => 2) (fun _ => 1)).F 0 ⟨0, by norm_num⟩
      = 1 / 5000 := by
    simp [init_approx, cumsum, f_init, Bconst, fact_list, X, Nat.factorial]
    norm_num
  rw [h1, h2]
  have e1 : |(1 : ℚ) / 10000 - 1 / 5000| = 1 / 10000 := by
    rw [abs_sub_comm, abs_of_nonneg] <;> norm_num
  have e2 : |(1 : ℚ) / 5000| = 1 / 5000 := by
    rw [abs_of_nonneg] ; norm_num
  rw [e1, e2]
  norm_num

/-- C1 (amended). For integer Beta parameters reachable from the Beta(1,1)
prior (both at least 1), rewards y in {0,1} and any grid size N of at
least 100, applying update_approx to the init_approx grid state yields a
density array f and a normalizing constant array B that agree EXACTLY
(hence within any relative tolerance) with a from-scratch init_approx call
at the post-update parameters; the cumulative arrays F and G do not enjoy
this (the counterexample shows the relative deviation of F exceeds 1e-6),
because the closed-form update applies the continuous Beta recursion to
the discrete cumulative sums. -/
theorem C1_update_f_B_exact {K N : ℕ} (b1 b2 : Fin K → ℕ) (k : Fin K) (y : ℕ)
    (_hN : 100 ≤ N) (hy : y ≤ 1) (ha : 1 ≤ b1 k) (hb : 1 ≤ b2 k) :
    ∀ (j : Fin K) (jx : Fin N),
      (update_approx k (y : ℚ) (b1 k) (b2 k) (init_approx K N b1 b2)).f j jx
        = (init_approx K N (Function.update b1 k (b1 k + y))
            (Function.update b2 k (b2 k + (1 - y)))).f j jx
      ∧ (update_approx k (y : ℚ) (b1 k) (b2 k) (init_approx K N b1 b2)).B j
        = (init_approx K N (Function.update b1 k (b1 k + y))
            (Function.update b2 k (b2 k + (1 - y)))).B j := by
  intro j jx
  by_cases hj : j = k
  · subst hj
    obtain ⟨a0, ha0⟩ := Nat.exists_eq_add_of_le ha
    obtain ⟨b0, hb0⟩ := Nat.exists_eq_add_of_le hb
    have h1a := fact_cast_ne a0
    have h1b := fact_cast_ne b0
    have h2a := fact_cast_ne (1 + a0)
    have h2b := fact_cast_ne (1 + b0)
    have h3 := fact_cast_ne (a0 + b0 + 1)
    have h4a : ((1 : ℚ) + a0) ≠ 0 := by positivity
    have h4b : ((1 : ℚ) + b0) ≠ 0 := by positivity
    have h6 : ((a0 : ℚ) + b0 + 2) ≠ 0 := by positivity
    interval_cases y
    · constructor
      · simp only [update_approx, init_approx, Function.update_same, f_init, Bconst,
          fact_list, ha0, hb0]
        norm_num
        rw [show (1 : ℕ) + a0 + (1 + b0) - 1 = a0 + b0 + 1 by omega,
          show (1 : ℕ) + a0 + (1 + b0) = (a0 + b0 + 1) + 1 by omega,
          Nat.factorial_succ (a0 + b0 + 1),
          show (1 : ℕ) + b0 = b0 + 1 by omega,
          Nat.factorial_succ b0, pow_succ]
        push_cast
        field_simp
        ring
      · simp only [update_approx, init_approx, Function.update_same, Bconst, fact_list, ha0, hb0]
        norm_num
        rw [show (1 : ℕ) + a0 + (1 + b0) - 1 = a0 + b0 + 1 by omega,
          show (1 : ℕ) + a0 + (1 + b0) = (a0 + b0 + 1) + 1 by omega,
          Nat.factorial_succ (a0 + b0 + 1),
          show (1 : ℕ) + b0 = b0 + 1 by omega,
          Nat.factorial_succ b0]
        push_cast
        field_simp
        ring
    · constructor
      · simp only [update_approx, init_approx, Function.update_same, f_init, Bconst,
          fact_list, ha0, hb0]
        norm_num
        rw [show (1 : ℕ) + a0 + (1 + b0) - 1 = a0 + b0 + 1 by omega,
          show (1 : ℕ) + a0 + (1 + b0) = (a0 + b0 + 1) + 1 by omega,
          Nat.factorial_succ (a0 + b0 + 1),
          show (1 : ℕ) + a0 = a0 + 1 by omega,
          Nat.factorial_succ a0, pow_succ]
        push_cast
        field_simp
        ring
      · simp only [update_approx, init_approx, Function.update_same, Bconst, fact_list, ha0, hb0]
        norm_num
        rw [show (1 : ℕ) + a0 + (1 + b0) - 1 = a0 + b0 + 1 by omega,
          show (1 : ℕ) + a0 + (1 + b0) = (a0 + b0 + 1) + 1 by omega,
          Nat.factorial_succ (a0 + b0 + 1),
          show (1 : ℕ) + a0 = a0 + 1 by omega,
          Nat.factorial_succ a0]
        push_cast
        field_simp
        ring
  · constructor
    · simp only [update_approx, init_approx, Function.update_noteq hj]
    · simp only [update_approx, init_approx, Function.update_noteq hj]

/-- C1 (witness for the amended theorem). The theorem applies with one arm,
N = 100, the uniform prior and reward 1. -/
theorem C1_update_f_B_exact_witness :
    100 ≤ 100 ∧ 1 ≤ 1 ∧
    ∀ (j : Fin 1) (jx : Fin 100),
      (update_approx (0 : Fin 1) ((1 : ℕ) : ℚ) 1 1
          (init_approx 1 100 (fun _ => 1) (fun _ => 1))).f j jx
        = (init_approx 1 100 (Function.update (fun _ => 1) (0 : Fin 1) (1 + 1))
            (Function.update (fun _ => 1) (0 : Fin 1) (1 + (1 - 1)))).f j jx
      ∧ (update_approx (0 : Fin 1) ((1 : ℕ) : ℚ) 1 1
          (init_approx 1 100 (fun _ => 1) (fun _ => 1))).B j
        = (init_approx 1 100 (Function.update (fun _ => 1) (0 : Fin 1) (1 + 1))
            (Function.update (fun _ => 1) (0 : Fin 1) (1 + (1 - 1)))).B j :=
  ⟨le_refl 100, le_refl 1,
    C1_update_f_B_exact (fun _ => 1) (fun _ => 1) 0 1
      (le_refl 100) (le_refl 1) (le_refl 1) (le_refl 1)⟩

/-- C3. The probability of optimality computed by IR_approx is the grid
integral (1/N) times the sum over grid points of f[a] times the product of
F over the arms other than a; a factor F[app] enters the triple product
for entry (a, ap) exactly when app differs from both a and ap; and the
diagonal entry reduces to the product over all arms other than a. -/
theorem C3_p_star_grid_integral {K N : ℕ} (s : GridState K N) (a : Fin K) :
    p_starQ s a
      = (1 / (N : ℚ))
        * ∑ j, s.f a j * ∏ app in Finset.univ.filter (fun app => app ≠ a), s.F app j
    ∧ (∀ (ap : Fin K) (j : Fin N), prod_F1 s a ap j
        = (∏ app in Finset.univ.filter (fun app => app ≠ a ∧ app ≠ ap), s.F app j)
          * s.f a j / N)
    ∧ (∀ j : Fin N, prod_F1 s a a j
        = (∏ app in Finset.univ.filter (fun app => app ≠ a), s.F app j)
          * s.f a j / N) := by
  have hdiag : (Finset.univ.filter (fun app => a ≠ app ∧ app ≠ a))
      = (Finset.univ.filter (fun app : Fin K => app ≠ a)) := by
    ext x
    simp only [Finset.mem_filter, Finset.mem_univ, true_and]
    exact ⟨fun h => h.2, fun h => ⟨Ne.symm h, h⟩⟩
  refine ⟨?_, ?_, ?_⟩
  · rw [p_starQ, Finset.mul_sum]
    refine Finset.sum_congr rfl (fun j _ => ?_)
    rw [prod_F1, hdiag]
    ring
  · intro ap j
    have h2 : (Finset.univ.filter (fun app => a ≠ app ∧ app ≠ ap))
        = (Finset.univ.filter (fun app : Fin K => app ≠ a ∧ app ≠ ap)) := by
      ext x
      simp only [Finset.mem_filter, Finset.mem_univ, true_and]
      exact ⟨fun h => ⟨Ne.symm h.1, h.2⟩, fun h => ⟨Ne.symm h.1, h.2⟩⟩
    rw [prod_F1, h2]
  · intro j
    rw [prod_F1, hdiag]

/-- C4 (counterexample). With pre-update parameters (alpha, beta) = (1, 2),
one arm, N = 4 and reward y = 1, the correction that update_approx applies
to F is NOT proportional to X^beta * (1 - X)^alpha = X^2 * (1 - X): grid
points 0 and 1 would force two different proportionality constants
(-6 and -2 respectively). -/
theorem C4_boundary_exponent_counterexample :
    ¬ ∃ c : ℚ, ∀ j : Fin 4,
      (update_approx (K := 1) (N := 4) 0 1 1 2
          (init_approx 1 4 (fun _ => 1) (fun _ => 2))).F 0 j
        - (init_approx 1 4 (fun _ => 1) (fun _ => 2)).F 0 j
        = c * X 4 j ^ (2 : ℕ) * (1 - X 4 j) ^ (1 : ℕ) := by
  rintro ⟨c, hc⟩
  have h0 := hc 0
  have h1 := hc 1
  simp [update_approx, init_approx, cumsum, f_init, Bconst, fact_list, X,
    Function.update, Nat.factorial, Finset.sum_range_succ] at h0 h1
  norm_num at h0 h1
  linarith

/-- C4 (amended). The boundary-term corrections that update_approx applies
to F and to G are proportional to X^alpha * (1 - X)^beta, the grid points
raised to the FIRST pre-update Beta parameter times one minus the grid
points raised to the SECOND parameter (the claim swapped the two
exponents); the proportionality constants are the explicit coefficients
shown, and for G the update is the rescaled old F plus such a correction. -/
theorem C4_boundary_terms {K N : ℕ} (arm : Fin K) (y : ℚ) (a b : ℕ)
    (s : GridState K N) (ha : 1 ≤ a) :
    ∀ j : Fin N,
      (update_approx arm y a b s).F arm j - s.F arm j
        = ((if y = 0 then (1 : ℚ) else -1) / (((a : ℚ) * y + b * (1 - y)) * s.B arm))
          * (X N j ^ a * (1 - X N j) ^ b)
      ∧ (update_approx arm y a b s).G arm j
        = ((a : ℚ) / ((a : ℚ) + b)) * s.F arm j
          - (1 / (((a : ℚ) + b) * s.B arm)) * (X N j ^ a * (1 - X N j) ^ b) := by
  intro j
  have ha' : (a : ℚ) ≠ 0 := by
    have : 0 < (a : ℚ) := by exact_mod_cast Nat.lt_of_lt_of_le Nat.zero_lt_one ha
    exact this.ne'
  constructor
  · simp only [update_approx, Function.update_same]
    rw [add_sub_cancel_left, div_div, div_mul_eq_mul_div, mul_assoc]
  · simp only [update_approx, Function.update_same]
    have step : (a : ℚ) / ((a : ℚ) + b)
        * (X N j ^ a * (1 - X N j) ^ b / a / s.B arm)
        = ((a : ℚ) / a)
          * (X N j ^ a * (1 - X N j) ^ b / (((a : ℚ) + b) * s.B arm)) := by
      rw [div_div, div_mul_div_comm, div_mul_div_comm]
      congr 1
      ring
    rw [mul_sub, step, div_self ha', one_mul, one_div_mul_eq_div]

/-- C4 (witness for the amended theorem). The theorem applies with one
arm, N = 4, pre-update parameters (1, 2) and reward 1. -/
theorem C4_boundary_terms_witness :
    1 ≤ 1 ∧
    ∀ j : Fin 4,
      (update_approx (K := 1) (N := 4) 0 1 1 2
          (init_approx 1 4 (fun _ => 1) (fun _ => 2))).F 0 j
        - (init_approx 1 4 (fun _ => 1) (fun _ => 2)).F 0 j
        = ((if (1 : ℚ) = 0 then (1 : ℚ) else -1)
            / ((((1 : ℕ) : ℚ) * 1 + ((2 : ℕ) : ℚ) * (1 - 1))
              * (init_approx 1 4 (fun _ => 1) (fun _ => 2)).B 0))
          * (X 4 j ^ (1 : ℕ) * (1 - X 4 j) ^ (2 : ℕ))
      ∧ (update_approx (K := 1) (N := 4) 0 1 1 2
          (init_approx 1 4 (fun _ => 1) (fun _ => 2))).G 0 j
        = (((1 : ℕ) : ℚ) / (((1 : ℕ) : ℚ) + ((2 : ℕ) : ℚ)))
            * (init_approx 1 4 (fun _ => 1) (fun _ => 2)).F 0 j
          - (1 / ((((1 : ℕ) : ℚ) + ((2 : ℕ) : ℚ))
              * (init_approx 1 4 (fun _ => 1) (fun _ => 2)).B 0))
            * (X 4 j ^ (1 : ℕ) * (1 - X 4 j) ^ (2 : ℕ)) :=
  ⟨le_refl 1, C4_boundary_terms (K := 1) (N := 4) 0 1 1 2
    (init_approx 1 4 (fun _ => 1) (fun _ => 2)) (le_refl 1)⟩

/-- The information gain g[arm] computed by IR_approx. The source line is
sum_log = maap[arm] * log(maap[arm]*(b1+b2)/b1)
        + (1-maap[arm]) * log((1-maap[arm])*(b1+b2)/b2)
followed by g[arm] = inner(p_star, sum_log): the arrays b1 and b2 are
indexed ELEMENTWISE by the summation index ap, so the reference mean
inside each logarithm is the posterior mean of arm ap. -/
noncomputable def IR_g_code {K N : ℕ} (s : GridState K N) (b1 b2 : Fin K → ℚ) (arm : Fin K) : ℝ :=
  ∑ ap, (p_starQ s ap : ℝ)
    * ((maapQ s arm ap : ℝ)
        * Real.log ((maapQ s arm ap : ℝ) * ((b1 ap : ℝ) + (b2 ap : ℝ)) / (b1 ap : ℝ))
      + (1 - (maapQ s arm ap : ℝ))
        * Real.log ((1 - (maapQ s arm ap : ℝ)) * ((b1 ap : ℝ) + (b2 ap : ℝ)) / (b2 ap : ℝ)))

/-- Modelled from the spec sentence of C2: the same sum with the posterior
mean of the pulled arm (parameters b1[arm], b2[arm]) as the reference mean
inside both logarithms, for every summation index ap. This is also the
convention of the sampling variant computeIDS, which compares Maap[a, ap]
against mu[a]. -/
noncomputable def IR_g_claim {K N : ℕ} (s : GridState K N) (b1 b2 : Fin K → ℚ) (arm : Fin K) : ℝ :=
  ∑ ap, (p_starQ s ap : ℝ)
    * ((maapQ s arm ap : ℝ)
        * Real.log ((maapQ s arm ap : ℝ) * ((b1 arm : ℝ) + (b2 arm : ℝ)) / (b1 arm : ℝ))
      + (1 - (maapQ s arm ap : ℝ))
        * Real.log ((1 - (maapQ s arm ap : ℝ)) * ((b1 arm : ℝ) + (b2 arm : ℝ)) / (b2 arm : ℝ)))

/-- A concrete two-arm grid state on two grid points used to separate the
two readings of the g formula. -/
def gStateC2 : GridState 2 2 where
  f := fun _ => ![1, 1]
  F := fun _ => ![1, 1]
  G := fun _ => ![1/4, 3/4]
  B := fun _ => 1

/-- C2 (code evaluation at the failing input). At the concrete grid state
gStateC2 with Beta parameters b1 = (3, 1), b2 = (1, 1), the g[0] value
computed by the code is 0 (every log argument built with the means of the
summation arms equals 1), while the formula of the claim, which fixes the
reference mean of arm 0 = 3/4 inside the logarithms, gives
(1/2) * log(4/3), which is strictly positive: the code disagrees with the
claimed formula. -/
theorem C2_g_reference_mean_code_bug :
    IR_g_code gStateC2 ![3, 1] ![1, 1] 0 ≠ IR_g_claim gStateC2 ![3, 1] ![1, 1] 0 := by
  have hp0 : p_starQ gStateC2 0 = 1 := by
    rw [p_starQ, Fin.sum_univ_two]
    rw [prod_F1, prod_F1]
    norm_num [gStateC2, Finset.prod_filter, Fin.prod_univ_two]
  have hp1 : p_starQ gStateC2 1 = 1 := by
    rw [p_starQ, Fin.sum_univ_two]
    rw [prod_F1, prod_F1]
    norm_num [gStateC2, Finset.prod_filter, Fin.prod_univ_two]
  have h00 : maapQ gStateC2 0 0 = 3 / 4 := by
    rw [maapQ, if_neg (by decide : ¬ ((0 : Fin 2) ≠ 0)), hp0, div_one]
    norm_num [Fin.sum_univ_two, prod_F1, gStateC2, Finset.prod_filter,
      Fin.prod_univ_two, X]
  have h01 : maapQ gStateC2 0 1 = 1 / 2 := by
    rw [maapQ, if_pos (by decide : ((1 : Fin 2) ≠ 0)), hp1, div_one]
    norm_num [Fin.sum_univ_two, prod_F1, gStateC2, Finset.prod_filter,
      Fin.prod_univ_two, X]
  have hcode : IR_g_code gStateC2 ![3, 1] ![1, 1] 0 = 0 := by
    rw [IR_g_code, Fin.sum_univ_two, h00, h01, hp0, hp1]
    norm_num [Real.log_one]
  have hlog : Real.log (2/3) + Real.log 2 = Real.log (4/3) := by
    rw [← Real.log_mul (by norm_num) (by norm_num)]
    norm_num
  have hclaim : IR_g_claim gStateC2 ![3, 1] ![1, 1] 0
      = (1/2) * Real.log (4/3) := by
    rw [IR_g_claim, Fin.sum_univ_two, h00, h01, hp0, hp1]
    norm_num [Real.log_one]
    rw [← hlog]
    ring
  rw [hcode, hclaim]
  have hpos : 0 < Real.log (4/3) := Real.log_pos (by norm_num)
  have : 0 < (1/2 : ℝ) * Real.log (4/3) := by positivity
  exact this.ne

/-- The per-run mutable state read and written by one round of IDS_approx:
the Beta parameter arrays, the grid arrays, the p_star vector carried from
the previous IR_approx call, the lock-in fields flag and optimal_arm kept
on the object, a counter of IR_approx invocations, and the recorded
history of pulled arms (arm_sequence of update_lists) together with the
arm pulled last. -/
structure ApproxState (K N : ℕ) where
  beta1 : Fin K → ℕ
  beta2 : Fin K → ℕ
  grid : GridState K N
  p_star : Fin K → ℚ
  flag : Bool
  optimal_arm : Option (Fin K)
  irCalls : ℕ
  lastArm : Fin K
  armSeq : List (Fin K)

/-- The tail shared by every branch of an IDS_approx round: record the
pulled arm, add the reward to beta1[arm] and its complement to
beta2[arm], and apply update_approx with the pre-update parameters of the
pulled arm. The branch supplies the new flag, optimal_arm, pulled arm,
p_star vector and IR_approx call count. -/
def approx_post {K N : ℕ} (rewardO : ℕ → Bool) (t : ℕ) (s : ApproxState K N)
    (flagN : Bool) (oaN : Option (Fin K)) (arm : Fin K)
    (pN : Fin K → ℚ) (callsN : ℕ) : ApproxState K N :=
  let y : ℕ := if rewardO t then 1 else 0
  { beta1 := Function.update s.beta1 arm (s.beta1 arm + y)
    beta2 := Function.update s.beta2 arm (s.beta2 arm + (1 - y))
    grid := update_approx arm (y : ℚ) (s.beta1 arm) (s.beta2 arm) s.grid
    p_star := pN
    flag := flagN
    optimal_arm := oaN
    irCalls := callsN
    lastArm := arm
    armSeq := s.armSeq ++ [arm] }

/-- One round of the IDS_approx loop. If the flag is set the locked arm is
pulled; otherwise if np.max(p_star) STRICTLY exceeds the threshold the run
locks to np.argmax(p_star); otherwise IR_approx is invoked (recomputing
p_star from the grid) and the arm is the one returned by the external
selector IDSAction, supplied as the oracle chooseO. -/
def approx_step {K N : ℕ} [NeZero K] (chooseO : ℕ → Fin K) (rewardO : ℕ → Bool)
    (t : ℕ) (s : ApproxState K N) : ApproxState K N :=
  if s.flag then
    approx_post rewardO t s true s.optimal_arm (s.optimal_arm.getD (i0 K))
      s.p_star s.irCalls
  else if threshold < maxQ s.p_star then
    approx_post rewardO t s true (some (np_argmax s.p_star)) (np_argmax s.p_star)
      s.p_star s.irCalls
  else
    approx_post rewardO t s false s.optimal_arm (chooseO t)
      (fun a => p_starQ s.grid a) (s.irCalls + 1)

/-- The IDS_approx loop run for n rounds from a given state. -/
def approx_run {K N : ℕ} [NeZero K] (chooseO : ℕ → Fin K) (rewardO : ℕ → Bool)
    (s0 : ApproxState K N) : ℕ → ApproxState K N
  | 0 => s0
  | n + 1 => approx_step chooseO rewardO n (approx_run chooseO rewardO s0 n)

/-- A sequence of in-place writes: fold over a list of indices, storing
g i at index i. This models a loop that assigns array entries one by one,
starting from the array it was handed. -/
def writeAll {ι A : Type} [DecidableEq ι] (l : List ι) (g : ι → A)
    (v : ι → A) : ι → A :=
  l.foldl (fun acc i => Function.update acc i (g i)) v

theorem writeAll_not_mem {ι A : Type} [DecidableEq ι] {l : List ι}
    {g : ι → A} {v : ι → A} {i : ι} (h : i ∉ l) : writeAll l g v i = v i := by
  induction l generalizing v with
  | nil => rfl
  | cons a l ih =>
    have hia : i ≠ a := fun hh => h (hh ▸ List.mem_cons_self a l)
    have hil : i ∉ l := fun hh => h (List.mem_cons_of_mem a hh)
    show writeAll l g (Function.update v a (g a)) i = v i
    rw [ih hil, Function.update_noteq hia]

theorem writeAll_mem {ι A : Type} [DecidableEq ι] {l : List ι}
    {g : ι → A} {v : ι → A} {i : ι} (h : i ∈ l) : writeAll l g v i = g i := by
  induction l generalizing v with
  | nil => cases h
  | cons a l ih =>
    by_cases hil : i ∈ l
    · exact ih hil
    · have hia : i = a := by
        rcases List.mem_cons.mp h with h1 | h2
        · exact h1
        · exact absurd h2 hil
      subst hia
      show writeAll l g (Function.update v i (g i)) i = g i
      rw [writeAll_not_mem hil, Function.update_same]

/-- The empirically optimal arm of one posterior draw index:
np.argmax(thetas, axis=0) at column m. -/
def theta_hatQ {K M : ℕ} [NeZero K] (thetas : Fin K → Fin M → ℚ) (m : Fin M) :
    Fin K :=
  np_argmax (fun a => thetas a m)

/-- The set of draw indices at which arm a is empirically optimal:
np.where(theta_hat == a). -/
def optSet {K M : ℕ} [NeZero K] (thetas : Fin K → Fin M → ℚ) (a : Fin K) :
    Finset (Fin M) :=
  Finset.univ.filter (fun m => theta_hatQ thetas m = a)

/-- Maap[ap, a] of computeIDS: np.nan_to_num(np.mean(t)) where t is the
row of arm ap restricted to the draws where arm a is optimal. The mean of
an empty slice is NaN, which nan_to_num sends to 0; otherwise the mean is
the finite sum divided by the cardinality. -/
def MaapEntry {K M : ℕ} [NeZero K] (thetas : Fin K → Fin M → ℚ)
    (ap a : Fin K) : ℚ :=
  if (optSet thetas a).card = 0 then 0
  else (∑ m in optSet thetas a, thetas ap m) / (optSet thetas a).card

/-- p_a[a] of computeIDS: t.shape[1] / M, the fraction of draws at which
arm a is empirically optimal. -/
def paEntry {K M : ℕ} [NeZero K] (thetas : Fin K → Fin M → ℚ) (a : Fin K) : ℚ :=
  ((optSet thetas a).card : ℚ) / M

/-- The loop order of computeIDS: for a (outer) and ap (inner), the entry
(ap, a) is written. -/
def pairsList (K : ℕ) : List (Fin K × Fin K) :=
  (List.finRange K).flatMap (fun a => (List.finRange K).map (fun ap => (ap, a)))

theorem pairsList_mem {K : ℕ} (pr : Fin K × Fin K) : pr ∈ pairsList K := by
  refine List.mem_flatMap.mpr ⟨pr.2, List.mem_finRange _, ?_⟩
  exact List.mem_map.mpr ⟨pr.1, List.mem_finRange _, rfl⟩

/-- What one computeIDS call returns and leaves behind: the chosen arm,
the (in-place mutated) Maap and p_a arrays as the caller sees them after
the call, the possibly reassigned self.optimal_arm, and whether the
regret/information-gain scores of the else branch were computed at all. -/
structure IDSResult (K : ℕ) where
  arm : Fin K
  Maap : Fin K × Fin K → ℚ
  p_a : Fin K → ℚ
  optimal_arm : Option (Fin K)
  computedRatio : Bool

/-- The Maap array as left behind by the double loop of computeIDS: every
entry of the argument array is overwritten with MaapEntry. -/
def computeIDS_Maap {K M : ℕ} [NeZero K] (Maap0 : Fin K × Fin K → ℚ)
    (thetas : Fin K → Fin M → ℚ) : Fin K × Fin K → ℚ :=
  writeAll (pairsList K) (fun pr => MaapEntry thetas pr.1 pr.2) Maap0

/-- The p_a array as left behind by the loop of computeIDS: every entry of
the argument array is overwritten with paEntry. -/
def computeIDS_pa {K M : ℕ} [NeZero K] (p0 : Fin K → ℚ)
    (thetas : Fin K → Fin M → ℚ) : Fin K → ℚ :=
  writeAll (List.finRange K) (fun a => paEntry thetas a) p0

/-- computeIDS. The double loop overwrites every entry of the Maap
argument with MaapEntry and every entry of the p_a argument with paEntry.
If np.max(p_a) >= threshold (non-strict), self.optimal_arm is set to
np.argmax(p_a) and that arm is returned without computing delta, g or v;
otherwise the scores are computed and handed to the external selector
(IDSAction in KL mode, rd_argmax of the variance ratio in VIDS mode),
whose randomized choice is the oracle argument chooseO; vids only changes
which scores feed that external selector. The flag field of the object is
not touched in either branch. -/
def computeIDS {K M : ℕ} [NeZero K] (_vids : Bool) (chooseO : Fin K)
    (cur_oa : Option (Fin K)) (Maap0 : Fin K × Fin K → ℚ) (p0 : Fin K → ℚ)
    (thetas : Fin K → Fin M → ℚ) : IDSResult K :=
  if threshold ≤ maxQ (computeIDS_pa p0 thetas) then
    ⟨np_argmax (computeIDS_pa p0 thetas), computeIDS_Maap Maap0 thetas,
      computeIDS_pa p0 thetas, some (np_argmax (computeIDS_pa p0 thetas)), false⟩
  else
    ⟨chooseO, computeIDS_Maap Maap0 thetas, computeIDS_pa p0 thetas, cur_oa, true⟩

/-- The per-run mutable state of IDS_sample and VIDS_sample: Beta
parameters, the bank of M posterior draws per arm, the Maap and p_a
arrays threaded through computeIDS, the lock-in fields kept on the
object, a counter of computeIDS invocations, and the recorded history of
pulled arms. -/
structure SampleState (K M : ℕ) where
  beta1 : Fin K → ℕ
  beta2 : Fin K → ℕ
  thetas : Fin K → Fin M → ℚ
  Maap : Fin K × Fin K → ℚ
  p_a : Fin K → ℚ
  flag : Bool
  optimal_arm : Option (Fin K)
  idsCalls : ℕ
  armSeq : List (Fin K)

/-- The tail shared by every branch of an IDS_sample round: record the
pulled arm, update the Beta parameters of the pulled arm, and regenerate
only that arm's M draws from the new posterior (the fresh draws are the
oracle thetaO). -/
def sample_post {K M : ℕ} (rewardO : ℕ → Bool) (thetaO : ℕ → Fin M → ℚ)
    (t : ℕ) (s : SampleState K M) (flagN : Bool) (oaN : Option (Fin K))
    (arm : Fin K) (MaapN : Fin K × Fin K → ℚ) (paN : Fin K → ℚ)
    (callsN : ℕ) : SampleState K M :=
  let y : ℕ := if rewardO t then 1 else 0
  { beta1 := Function.update s.beta1 arm (s.beta1 arm + y)
    beta2 := Function.update s.beta2 arm (s.beta2 arm + (1 - y))
    thetas := Function.update s.thetas arm (thetaO t)
    Maap := MaapN
    p_a := paN
    flag := flagN
    optimal_arm := oaN
    idsCalls := callsN
    armSeq := s.armSeq ++ [arm] }

/-- One round of the IDS_sample / VIDS_sample loop. If the flag is set the
locked arm is pulled; otherwise if np.max(p_a) >= threshold (non-strict)
the flag is set and self.optimal_arm (assigned by an earlier computeIDS)
is pulled; otherwise computeIDS is invoked. -/
def sample_step {K M : ℕ} [NeZero K] (vids : Bool) (chooseO : ℕ → Fin K)
    (rewardO : ℕ → Bool) (thetaO : ℕ → Fin M → ℚ) (t : ℕ)
    (s : SampleState K M) : SampleState K M :=
  if s.flag then
    sample_post rewardO thetaO t s true s.optimal_arm
      (s.optimal_arm.getD (i0 K)) s.Maap s.p_a s.idsCalls
  else if threshold ≤ maxQ s.p_a then
    sample_post rewardO thetaO t s true s.optimal_arm
      (s.optimal_arm.getD (i0 K)) s.Maap s.p_a s.idsCalls
  else
    let r := computeIDS vids (chooseO t) s.optimal_arm s.Maap s.p_a s.thetas
    sample_post rewardO thetaO t s false r.optimal_arm r.arm r.Maap r.p_a
      (s.idsCalls + 1)

/-- The object-level lock-in state: the fields self.flag and
self.optimal_arm, initialized in the constructor and read and written by
the entry points. -/
structure ObjState (K : ℕ) where
  flag : Bool
  optimal_arm : Option (Fin K)

/-- The lock-in state right after the constructor runs:
self.flag = False, self.optimal_arm = None. -/
def initObj (K : ℕ) : ObjState K := ⟨false, none⟩

/-- The run-local state built at the top of IDS_sample / VIDS_sample:
fresh Beta(1,1) parameters, zero Maap and p_a arrays, an initial bank of
posterior draws, an empty history, and the lock-in fields taken from the
object, which the entry point does NOT reset. -/
def sample_entry {K M : ℕ} (obj : ObjState K) (theta0 : Fin K → Fin M → ℚ) :
    SampleState K M where
  beta1 := fun _ => 1
  beta2 := fun _ => 1
  thetas := theta0
  Maap := fun _ => 0
  p_a := fun _ => 0
  flag := obj.flag
  optimal_arm := obj.optimal_arm
  idsCalls := 0
  armSeq := []

/-- A call to the IDS_sample / VIDS_sample entry point on an object in
lock-in state obj, run for n rounds. -/
def sample_run {K M : ℕ} [NeZero K] (vids : Bool) (chooseO : ℕ → Fin K)
    (rewardO : ℕ → Bool) (thetaO : ℕ → Fin M → ℚ) (obj : ObjState K)
    (theta0 : Fin K → Fin M → ℚ) : ℕ → SampleState K M
  | 0 => sample_entry obj theta0
  | n + 1 => sample_step vids chooseO rewardO thetaO n
      (sample_run vids chooseO rewardO thetaO obj theta0 n)

/-- The object-level lock-in state left behind after a run. -/
def objAfter {K M : ℕ} (s : SampleState K M) : ObjState K :=
  ⟨s.flag, s.optimal_arm⟩

theorem finRange_two : List.finRange 2 = [0, 1] := by decide

theorem finRange_one : List.finRange 1 = [0] := by decide

/-- The first branch of an IDS_approx round: a set flag short-circuits to
the locked arm. -/
theorem approx_step_locked {K N : ℕ} [NeZero K] (chooseO : ℕ → Fin K)
    (rewardO : ℕ → Bool) (t : ℕ) (s : ApproxState K N) (h : s.flag = true) :
    approx_step chooseO rewardO t s
      = approx_post rewardO t s true s.optimal_arm (s.optimal_arm.getD (i0 K))
          s.p_star s.irCalls := by
  rw [approx_step, if_pos h]

/-- The first branch of an IDS_sample round: a set flag short-circuits to
the locked arm. -/
theorem sample_step_locked {K M : ℕ} [NeZero K] (vids : Bool)
    (chooseO : ℕ → Fin K) (rewardO : ℕ → Bool) (thetaO : ℕ → Fin M → ℚ)
    (t : ℕ) (s : SampleState K M) (h : s.flag = true) :
    sample_step vids chooseO rewardO thetaO t s
      = sample_post rewardO thetaO t s true s.optimal_arm
          (s.optimal_arm.getD (i0 K)) s.Maap s.p_a s.idsCalls := by
  rw [sample_step, if_pos h]

/-- Once the flag of an approx run is set, every later state keeps the
flag, the optimal arm and the IR_approx call count, and every later round
appends exactly the locked arm to the history. -/
theorem approx_run_locked_from {K N : ℕ} [NeZero K] (chooseO : ℕ → Fin K)
    (rewardO : ℕ → Bool) (s0 : ApproxState K N) (n : ℕ)
    (h : (approx_run chooseO rewardO s0 n).flag = true) :
    ∀ d : ℕ,
      (approx_run chooseO rewardO s0 (n + d)).flag = true
      ∧ (approx_run chooseO rewardO s0 (n + d)).optimal_arm
          = (approx_run chooseO rewardO s0 n).optimal_arm
      ∧ (approx_run chooseO rewardO s0 (n + d)).irCalls
          = (approx_run chooseO rewardO s0 n).irCalls
      ∧ (approx_run chooseO rewardO s0 (n + d + 1)).armSeq
          = (approx_run chooseO rewardO s0 (n + d)).armSeq
            ++ [((approx_run chooseO rewardO s0 n).optimal_arm).getD (i0 K)] := by
  intro d
  induction d with
  | zero =>
    refine ⟨h, rfl, rfl, ?_⟩
    show (approx_step chooseO rewardO n (approx_run chooseO rewardO s0 n)).armSeq = _
    rw [approx_step_locked chooseO rewardO n _ h]
    rfl
  | succ d ih =>
    obtain ⟨hf, hoa, hir, _⟩ := ih
    have hS : approx_run chooseO rewardO s0 (n + (d + 1))
        = approx_post rewardO (n + d) (approx_run chooseO rewardO s0 (n + d)) true
            (approx_run chooseO rewardO s0 (n + d)).optimal_arm
            ((approx_run chooseO rewardO s0 (n + d)).optimal_arm.getD (i0 K))
            (approx_run chooseO rewardO s0 (n + d)).p_star
            (approx_run chooseO rewardO s0 (n + d)).irCalls := by
      rw [show approx_run chooseO rewardO s0 (n + (d + 1))
            = approx_step chooseO rewardO (n + d) (approx_run chooseO rewardO s0 (n + d))
          from rfl,
        approx_step_locked chooseO rewardO (n + d) _ hf]
    have h1 : (approx_run chooseO rewardO s0 (n + (d + 1))).flag = true := by
      rw [hS]
      rfl
    have h2 : (approx_run chooseO rewardO s0 (n + (d + 1))).optimal_arm
        = (approx_run chooseO rewardO s0 n).optimal_arm := by
      rw [hS]
      exact hoa
    have h3 : (approx_run chooseO rewardO s0 (n + (d + 1))).irCalls
        = (approx_run chooseO rewardO s0 n).irCalls := by
      rw [hS]
      exact hir
    refine ⟨h1, h2, h3, ?_⟩
    rw [show approx_run chooseO rewardO s0 (n + (d + 1) + 1)
          = approx_step chooseO rewardO (n + d + 1)
              (approx_run chooseO rewardO s0 (n + (d + 1))) from rfl,
      approx_step_locked chooseO rewardO (n + d + 1) _ h1]
    show _ ++ _ = _ ++ _
    rw [h2]

/-- Once the flag of a sample run is set, every later state keeps the
flag, the optimal arm and the computeIDS call count, and every later
round appends exactly the locked arm to the history. -/
theorem sample_run_locked_from {K M : ℕ} [NeZero K] (vids : Bool)
    (chooseO : ℕ → Fin K) (rewardO : ℕ → Bool) (thetaO : ℕ → Fin M → ℚ)
    (obj : ObjState K) (theta0 : Fin K → Fin M → ℚ) (n : ℕ)
    (h : (sample_run vids chooseO rewardO thetaO obj theta0 n).flag = true) :
    ∀ d : ℕ,
      (sample_run vids chooseO rewardO thetaO obj theta0 (n + d)).flag = true
      ∧ (sample_run vids chooseO rewardO thetaO obj theta0 (n + d)).optimal_arm
          = (sample_run vids chooseO rewardO thetaO obj theta0 n).optimal_arm
      ∧ (sample_run vids chooseO rewardO thetaO obj theta0 (n + d)).idsCalls
          = (sample_run vids chooseO rewardO thetaO obj theta0 n).idsCalls
      ∧ (sample_run vids chooseO rewardO thetaO obj theta0 (n + d + 1)).armSeq
          = (sample_run vids chooseO rewardO thetaO obj theta0 (n + d)).armSeq
            ++ [((sample_run vids chooseO rewardO thetaO obj theta0 n).optimal_arm).getD
                  (i0 K)] := by
  intro d
  induction d with
  | zero =>
    refine ⟨h, rfl, rfl, ?_⟩
    show (sample_step vids chooseO rewardO thetaO n
        (sample_run vids chooseO rewardO thetaO obj theta0 n)).armSeq = _
    rw [sample_step_locked vids chooseO rewardO thetaO n _ h]
    rfl
  | succ d ih =>
    obtain ⟨hf, hoa, hir, _⟩ := ih
    have hS : sample_run vids chooseO rewardO thetaO obj theta0 (n + (d + 1))
        = sample_post rewardO thetaO (n + d)
            (sample_run vids chooseO rewardO thetaO obj theta0 (n + d)) true
            (sample_run vids chooseO rewardO thetaO obj theta0 (n + d)).optimal_arm
            ((sample_run vids chooseO rewardO thetaO obj theta0 (n + d)).optimal_arm.getD
              (i0 K))
            (sample_run vids chooseO rewardO thetaO obj theta0 (n + d)).Maap
            (sample_run vids chooseO rewardO thetaO obj theta0 (n + d)).p_a
            (sample_run vids chooseO rewardO thetaO obj theta0 (n + d)).idsCalls := by
      rw [show sample_run vids chooseO rewardO thetaO obj theta0 (n + (d + 1))
            = sample_step vids chooseO rewardO thetaO (n + d)
                (sample_run vids chooseO rewardO thetaO obj theta0 (n + d))
          from rfl,
        sample_step_locked vids chooseO rewardO thetaO (n + d) _ hf]
    have h1 : (sample_run vids chooseO rewardO thetaO obj theta0 (n + (d + 1))).flag
        = true := by
      rw [hS]
      rfl
    have h2 : (sample_run vids chooseO rewardO thetaO obj theta0 (n + (d + 1))).optimal_arm
        = (sample_run vids chooseO rewardO thetaO obj theta0 n).optimal_arm := by
      rw [hS]
      exact hoa
    have h3 : (sample_run vids chooseO rewardO thetaO obj theta0 (n + (d + 1))).idsCalls
        = (sample_run vids chooseO rewardO thetaO obj theta0 n).idsCalls := by
      rw [hS]
      exact hir
    refine ⟨h1, h2, h3, ?_⟩
    rw [show sample_run vids chooseO rewardO thetaO obj theta0 (n + (d + 1) + 1)
          = sample_step vids chooseO rewardO thetaO (n + d + 1)
              (sample_run vids chooseO rewardO thetaO obj theta0 (n + (d + 1))) from rfl,
      sample_step_locked vids chooseO rewardO thetaO (n + d + 1) _ h1]
    show _ ++ _ = _ ++ _
    rw [h2]

/-- Unfolding np.max over two arms. -/
theorem maxQ_two (v : Fin 2 → ℚ) : maxQ v = max (max (v 0) (v 0)) (v 1) := by
  rw [maxQ, finRange_two]
  rfl

/-- A grid state whose arrays are all zero, used as a don-t-care filler in
concrete lock-in scenarios. -/
def gridZero (K N : ℕ) : GridState K N :=
  ⟨fun _ _ => 0, fun _ _ => 0, fun _ _ => 0, fun _ => 0⟩

/-- A concrete IDS_approx round state whose p_star vector attains its
maximum exactly at the threshold 0.99. -/
def sGC5 : ApproxState 2 1 where
  beta1 := fun _ => 1
  beta2 := fun _ => 1
  grid := gridZero 2 1
  p_star := ![99/100, 0]
  flag := false
  optimal_arm := none
  irCalls := 0
  lastArm := 0
  armSeq := []

/-- A concrete IDS_sample round state whose p_a vector attains its maximum
exactly at the threshold 0.99 (p_a = counts / M is exactly 99/100 when 99
of M = 100 draws favour arm 0). -/
def sSC5 : SampleState 2 1 where
  beta1 := fun _ => 1
  beta2 := fun _ => 1
  thetas := fun _ _ => 0
  Maap := fun _ => 0
  p_a := ![99/100, 1/100]
  flag := false
  optimal_arm := some 0
  idsCalls := 0
  armSeq := []

/-- C5 (counterexample). A maximum optimality probability exactly equal to
0.99 does NOT behave the same in the two variants: the grid variant
(strict comparison at line 144) does not lock, but the sampling variant
(non-strict comparison at line 249) does set the flag, contradicting the
claim that equality triggers lock-in in neither variant. -/
theorem C5_equal_threshold_counterexample :
    maxQ sGC5.p_star = threshold
    ∧ maxQ sSC5.p_a = threshold
    ∧ (approx_step (fun _ => 0) (fun _ => false) 0 sGC5).flag = false
    ∧ (sample_step false (fun _ => 0) (fun _ => false) (fun _ _ => 0) 0 sSC5).flag
        = true := by
  have hg : maxQ sGC5.p_star = threshold := by
    show maxQ ![(99 : ℚ)/100, 0] = threshold
    rw [maxQ_two, threshold]
    norm_num
  have hs : maxQ sSC5.p_a = threshold := by
    show maxQ ![(99 : ℚ)/100, 1/100] = threshold
    rw [maxQ_two, threshold]
    norm_num
  refine ⟨hg, hs, ?_, ?_⟩
  · rw [approx_step, if_neg (by exact Bool.false_ne_true)]
    rw [if_neg (by rw [hg]; exact lt_irrefl threshold)]
    rfl
  · rw [sample_step, if_neg (by exact Bool.false_ne_true)]
    rw [if_pos (by rw [hs])]
    rfl

/-- C5 (amended). For an unlocked state, the grid variant sets the flag in
the next round exactly when np.max(p_star) STRICTLY exceeds the threshold,
while the sampling variant sets it exactly when np.max(p_a) is greater
than OR EQUAL to the threshold: a maximum exactly equal to 0.99 locks the
sampling variant but not the grid variant. -/
theorem C5_lock_condition_amended {K N M : ℕ} [NeZero K] (vids : Bool)
    (chooseO : ℕ → Fin K) (rewardO : ℕ → Bool) (thetaO : ℕ → Fin M → ℚ)
    (t : ℕ) (sg : ApproxState K N) (ss : SampleState K M)
    (hg : sg.flag = false) (hs : ss.flag = false) :
    ((approx_step chooseO rewardO t sg).flag = true
      ↔ threshold < maxQ sg.p_star)
    ∧ ((sample_step vids chooseO rewardO thetaO t ss).flag = true
      ↔ threshold ≤ maxQ ss.p_a) := by
  constructor
  · rw [approx_step, if_neg (by rw [hg]; exact Bool.false_ne_true)]
    by_cases h : threshold < maxQ sg.p_star
    · rw [if_pos h]
      exact ⟨fun _ => h, fun _ => rfl⟩
    · rw [if_neg h]
      exact ⟨fun hh => absurd hh Bool.false_ne_true, fun hh => absurd hh h⟩
  · rw [sample_step, if_neg (by rw [hs]; exact Bool.false_ne_true)]
    by_cases h : threshold ≤ maxQ ss.p_a
    · rw [if_pos h]
      exact ⟨fun _ => h, fun _ => rfl⟩
    · rw [if_neg h]
      exact ⟨fun hh => absurd hh Bool.false_ne_true, fun hh => absurd hh h⟩

/-- C5 (witness for the amended theorem), at the two concrete states. -/
theorem C5_lock_condition_amended_witness :
    sGC5.flag = false ∧ sSC5.flag = false
    ∧ (((approx_step (fun _ => 0) (fun _ => false) 0 sGC5).flag = true
        ↔ threshold < maxQ sGC5.p_star)
      ∧ ((sample_step false (fun _ => 0) (fun _ => false) (fun _ _ => 0) 0 sSC5).flag
          = true ↔ threshold ≤ maxQ sSC5.p_a)) :=
  ⟨rfl, rfl,
    C5_lock_condition_amended false (fun _ => 0) (fun _ => false) (fun _ _ => 0) 0
      sGC5 sSC5 rfl rfl⟩

/-- C6. In each of the three loop variants, once the flag is true at some
round, it stays true, optimal_arm never changes, the count of calls to
the information-ratio estimator (IR_approx, respectively computeIDS)
stays constant, and every subsequent round appends exactly the locked
optimal arm to the pulled-arm history. The sampling statement covers both
IDS_sample (vids = false) and VIDS_sample (vids = true). -/
theorem C6_lockin_monotonicity :
    (∀ (K N : ℕ) [NeZero K] (chooseO : ℕ → Fin K) (rewardO : ℕ → Bool)
        (s0 : ApproxState K N) (n : ℕ),
      (approx_run chooseO rewardO s0 n).flag = true →
      ∀ m : ℕ, n ≤ m →
        (approx_run chooseO rewardO s0 m).flag = true
        ∧ (approx_run chooseO rewardO s0 m).optimal_arm
            = (approx_run chooseO rewardO s0 n).optimal_arm
        ∧ (approx_run chooseO rewardO s0 m).irCalls
            = (approx_run chooseO rewardO s0 n).irCalls
        ∧ (approx_run chooseO rewardO s0 (m + 1)).armSeq
            = (approx_run chooseO rewardO s0 m).armSeq
              ++ [((approx_run chooseO rewardO s0 n).optimal_arm).getD (i0 K)])
    ∧ (∀ (vids : Bool) (K M : ℕ) [NeZero K] (chooseO : ℕ → Fin K)
        (rewardO : ℕ → Bool) (thetaO : ℕ → Fin M → ℚ) (obj : ObjState K)
        (theta0 : Fin K → Fin M → ℚ) (n : ℕ),
      (sample_run vids chooseO rewardO thetaO obj theta0 n).flag = true →
      ∀ m : ℕ, n ≤ m →
        (sample_run vids chooseO rewardO thetaO obj theta0 m).flag = true
        ∧ (sample_run vids chooseO rewardO thetaO obj theta0 m).optimal_arm
            = (sample_run vids chooseO rewardO thetaO obj theta0 n).optimal_arm
        ∧ (sample_run vids chooseO rewardO thetaO obj theta0 m).idsCalls
            = (sample_run vids chooseO rewardO thetaO obj theta0 n).idsCalls
        ∧ (sample_run vids chooseO rewardO thetaO obj theta0 (m + 1)).armSeq
            = (sample_run vids chooseO rewardO thetaO obj theta0 m).armSeq
              ++ [((sample_run vids chooseO rewardO thetaO obj theta0 n).optimal_arm).getD
                    (i0 K)]) := by
  constructor
  · intro K N inst chooseO rewardO s0 n h m hm
    obtain ⟨d, rfl⟩ := Nat.exists_eq_add_of_le hm
    exact approx_run_locked_from chooseO rewardO s0 n h d
  · intro vids K M inst chooseO rewardO thetaO obj theta0 n h m hm
    obtain ⟨d, rfl⟩ := Nat.exists_eq_add_of_le hm
    exact sample_run_locked_from vids chooseO rewardO thetaO obj theta0 n h d

/-- A concrete already-locked IDS_approx state on one arm. -/
def sAC6 : ApproxState 1 1 where
  beta1 := fun _ => 1
  beta2 := fun _ => 1
  grid := gridZero 1 1
  p_star := fun _ => 0
  flag := true
  optimal_arm := some 0
  irCalls := 0
  lastArm := 0
  armSeq := []

/-- A concrete already-locked object state on one arm. -/
def objC6 : ObjState 1 := ⟨true, some 0⟩

/-- C6 (witness): both parts of the theorem apply at already-locked
concrete states. -/
theorem C6_lockin_monotonicity_witness :
    ((approx_run (fun _ => 0) (fun _ => false) sAC6 0).flag = true
      ∧ (approx_run (fun _ => 0) (fun _ => false) sAC6 (0 + 1)).armSeq
          = (approx_run (fun _ => 0) (fun _ => false) sAC6 0).armSeq
            ++ [((approx_run (fun _ => 0) (fun _ => false) sAC6 0).optimal_arm).getD
                  (i0 1)])
    ∧ ((sample_run false (fun _ => 0) (fun _ => false) (fun _ _ => (0 : ℚ)) objC6
          (fun _ _ => (0 : ℚ)) (M := 1) 0).flag = true
      ∧ (sample_run false (fun _ => 0) (fun _ => false) (fun _ _ => (0 : ℚ)) objC6
          (fun _ _ => (0 : ℚ)) (M := 1) (0 + 1)).armSeq
          = (sample_run false (fun _ => 0) (fun _ => false) (fun _ _ => (0 : ℚ)) objC6
              (fun _ _ => (0 : ℚ)) (M := 1) 0).armSeq
            ++ [((sample_run false (fun _ => 0) (fun _ => false) (fun _ _ => (0 : ℚ))
                  objC6 (fun _ _ => (0 : ℚ)) (M := 1) 0).optimal_arm).getD (i0 1)]) :=
  ⟨⟨rfl,
    (C6_lockin_monotonicity.1 1 1 (fun _ => 0) (fun _ => false) sAC6 0 rfl 0
      (le_refl 0)).2.2.2⟩,
   ⟨rfl,
    (C6_lockin_monotonicity.2 false 1 1 (fun _ => 0) (fun _ => false)
      (fun _ _ => (0 : ℚ)) objC6 (fun _ _ => (0 : ℚ)) 0 rfl 0 (le_refl 0)).2.2.2⟩⟩

/-- C7. Per-round state mutation touches only the pulled arm: after any
round of IDS_approx, the grid rows f, F, G, the constant B and the Beta
parameters of every arm other than the pulled one are unchanged; and
update_approx itself changes no component of any arm other than the one
it is given. -/
theorem C7_mutation_arm_local :
    (∀ (K N : ℕ) [NeZero K] (chooseO : ℕ → Fin K) (rewardO : ℕ → Bool)
        (t : ℕ) (s : ApproxState K N) (j : Fin K),
      j ≠ (approx_step chooseO rewardO t s).lastArm →
        (approx_step chooseO rewardO t s).grid.f j = s.grid.f j
        ∧ (approx_step chooseO rewardO t s).grid.F j = s.grid.F j
        ∧ (approx_step chooseO rewardO t s).grid.G j = s.grid.G j
        ∧ (approx_step chooseO rewardO t s).grid.B j = s.grid.B j
        ∧ (approx_step chooseO rewardO t s).beta1 j = s.beta1 j
        ∧ (approx_step chooseO rewardO t s).beta2 j = s.beta2 j)
    ∧ (∀ (K N : ℕ) (arm : Fin K) (y : ℚ) (a b : ℕ) (g : GridState K N)
        (j : Fin K), j ≠ arm →
        (update_approx arm y a b g).f j = g.f j
        ∧ (update_approx arm y a b g).F j = g.F j
        ∧ (update_approx arm y a b g).G j = g.G j
        ∧ (update_approx arm y a b g).B j = g.B j) := by
  have hupd : ∀ (K N : ℕ) (arm : Fin K) (y : ℚ) (a b : ℕ) (g : GridState K N)
      (j : Fin K), j ≠ arm →
      (update_approx arm y a b g).f j = g.f j
      ∧ (update_approx arm y a b g).F j = g.F j
      ∧ (update_approx arm y a b g).G j = g.G j
      ∧ (update_approx arm y a b g).B j = g.B j := by
    intro K N arm y a b g j hj
    exact ⟨Function.update_noteq hj _ _, Function.update_noteq hj _ _,
      Function.update_noteq hj _ _, Function.update_noteq hj _ _⟩
  refine ⟨?_, hupd⟩
  intro K N inst chooseO rewardO t s j hj
  rw [approx_step] at hj ⊢
  split_ifs at hj ⊢ with h1 h2
  · exact ⟨(hupd K N _ _ _ _ _ _ hj).1, (hupd K N _ _ _ _ _ _ hj).2.1,
      (hupd K N _ _ _ _ _ _ hj).2.2.1, (hupd K N _ _ _ _ _ _ hj).2.2.2,
      Function.update_noteq hj _ _, Function.update_noteq hj _ _⟩
  · exact ⟨(hupd K N _ _ _ _ _ _ hj).1, (hupd K N _ _ _ _ _ _ hj).2.1,
      (hupd K N _ _ _ _ _ _ hj).2.2.1, (hupd K N _ _ _ _ _ _ hj).2.2.2,
      Function.update_noteq hj _ _, Function.update_noteq hj _ _⟩
  · exact ⟨(hupd K N _ _ _ _ _ _ hj).1, (hupd K N _ _ _ _ _ _ hj).2.1,
      (hupd K N _ _ _ _ _ _ hj).2.2.1, (hupd K N _ _ _ _ _ _ hj).2.2.2,
      Function.update_noteq hj _ _, Function.update_noteq hj _ _⟩

/-- A concrete unlocked IDS_approx state on two arms with the uniform
prior, matching the end-to-end scenario of the spec: the round pulls arm
0 (the external selector says 0) and arm 1 is untouched. -/
def sC7 : ApproxState 2 1 where
  beta1 := fun _ => 1
  beta2 := fun _ => 1
  grid := gridZero 2 1
  p_star := fun _ => 0
  flag := false
  optimal_arm := none
  irCalls := 0
  lastArm := 0
  armSeq := []

/-- C7 (witness): the round-level statement at a concrete state where arm
0 is pulled and j = 1 is inspected, and the update_approx statement at
the uniform prior with reward 1 for arm 0 and j = 1. -/
theorem C7_mutation_arm_local_witness :
    ((1 : Fin 2) ≠ (approx_step (fun _ => 0) (fun _ => false) 0 sC7).lastArm
      ∧ ((approx_step (fun _ => 0) (fun _ => false) 0 sC7).grid.f 1 = sC7.grid.f 1
        ∧ (approx_step (fun _ => 0) (fun _ => false) 0 sC7).grid.F 1 = sC7.grid.F 1
        ∧ (approx_step (fun _ => 0) (fun _ => false) 0 sC7).grid.G 1 = sC7.grid.G 1
        ∧ (approx_step (fun _ => 0) (fun _ => false) 0 sC7).grid.B 1 = sC7.grid.B 1
        ∧ (approx_step (fun _ => 0) (fun _ => false) 0 sC7).beta1 1 = sC7.beta1 1
        ∧ (approx_step (fun _ => 0) (fun _ => false) 0 sC7).beta2 1 = sC7.beta2 1))
    ∧ ((1 : Fin 2) ≠ (0 : Fin 2)
      ∧ ((update_approx (0 : Fin 2) (1 : ℚ) 1 1
            (init_approx 2 1 (fun _ => 1) (fun _ => 1))).f 1
          = (init_approx 2 1 (fun _ => 1) (fun _ => 1)).f 1
        ∧ (update_approx (0 : Fin 2) (1 : ℚ) 1 1
            (init_approx 2 1 (fun _ => 1) (fun _ => 1))).F 1
          = (init_approx 2 1 (fun _ => 1) (fun _ => 1)).F 1
        ∧ (update_approx (0 : Fin 2) (1 : ℚ) 1 1
            (init_approx 2 1 (fun _ => 1) (fun _ => 1))).G 1
          = (init_approx 2 1 (fun _ => 1) (fun _ => 1)).G 1
        ∧ (update_approx (0 : Fin 2) (1 : ℚ) 1 1
            (init_approx 2 1 (fun _ => 1) (fun _ => 1))).B 1
          = (init_approx 2 1 (fun _ => 1) (fun _ => 1)).B 1)) := by
  have hlast : (approx_step (fun _ => 0) (fun _ => false) 0 sC7).lastArm = 0 := by
    rw [approx_step, if_neg (by exact Bool.false_ne_true)]
    rw [if_neg]
    · rfl
    · show ¬ threshold < maxQ sC7.p_star
      rw [show maxQ sC7.p_star = max (max (0 : ℚ) 0) 0 from maxQ_two sC7.p_star,
        threshold]
      norm_num
  have hne : (1 : Fin 2) ≠ (approx_step (fun _ => 0) (fun _ => false) 0 sC7).lastArm := by
    rw [hlast]
    decide
  exact ⟨⟨hne, C7_mutation_arm_local.1 2 1 (fun _ => 0) (fun _ => false) 0 sC7 1 hne⟩,
    ⟨by decide,
      C7_mutation_arm_local.2 2 1 0 (1 : ℚ) 1 1
        (init_approx 2 1 (fun _ => 1) (fun _ => 1)) 1 (by decide)⟩⟩

/-- Every entry of the Maap array after the computeIDS loop holds the
freshly computed value, whatever the array held before. -/
theorem computeIDS_Maap_eval {K M : ℕ} [NeZero K] (Maap0 : Fin K × Fin K → ℚ)
    (thetas : Fin K → Fin M → ℚ) :
    computeIDS_Maap Maap0 thetas = fun pr => MaapEntry thetas pr.1 pr.2 := by
  funext pr
  exact writeAll_mem (pairsList_mem pr)

/-- Every entry of the p_a array after the computeIDS loop holds the
freshly computed value, whatever the array held before. -/
theorem computeIDS_pa_eval {K M : ℕ} [NeZero K] (p0 : Fin K → ℚ)
    (thetas : Fin K → Fin M → ℚ) :
    computeIDS_pa p0 thetas = fun a => paEntry thetas a := by
  funext a
  exact writeAll_mem (List.mem_finRange a)

/-- Both branches of computeIDS return the overwritten Maap array. -/
theorem computeIDS_Maap_proj {K M : ℕ} [NeZero K] (vids : Bool) (chooseO : Fin K)
    (cur_oa : Option (Fin K)) (Maap0 : Fin K × Fin K → ℚ) (p0 : Fin K → ℚ)
    (thetas : Fin K → Fin M → ℚ) :
    (computeIDS vids chooseO cur_oa Maap0 p0 thetas).Maap
      = computeIDS_Maap Maap0 thetas := by
  rw [computeIDS]
  split_ifs <;> rfl

/-- Both branches of computeIDS return the overwritten p_a array. -/
theorem computeIDS_pa_proj {K M : ℕ} [NeZero K] (vids : Bool) (chooseO : Fin K)
    (cur_oa : Option (Fin K)) (Maap0 : Fin K × Fin K → ℚ) (p0 : Fin K → ℚ)
    (thetas : Fin K → Fin M → ℚ) :
    (computeIDS vids chooseO cur_oa Maap0 p0 thetas).p_a
      = computeIDS_pa p0 thetas := by
  rw [computeIDS]
  split_ifs <;> rfl

theorem i0_two : i0 2 = 0 := rfl

/-- Unfolding np.argmax over two arms: the second index wins exactly on a
strict improvement. -/
theorem np_argmax_two (v : Fin 2 → ℚ) : np_argmax v = if v 0 < v 1 then 1 else 0 := by
  rw [np_argmax, finRange_two, i0_two]
  simp only [List.foldl]
  rw [if_neg (lt_irrefl (v 0))]

/-- Unfolding the empirically optimal arm over two arms. -/
theorem theta_hatQ_two {M : ℕ} (thetas : Fin 2 → Fin M → ℚ) (m : Fin M) :
    theta_hatQ thetas m = if thetas 0 m < thetas 1 m then 1 else 0 := by
  rw [theta_hatQ, np_argmax_two]

/-- A bank of one posterior draw per arm in which arm 0 always wins. -/
def thetasArm0 : Fin 2 → Fin 1 → ℚ := fun a _ => if a = 0 then 1/2 else 1/4

/-- A bank of one posterior draw per arm in which arm 1 always wins. -/
def thetasArm1 : Fin 2 → Fin 1 → ℚ := fun a _ => if a = 0 then 0 else 1

theorem thetasArm0_hat (m : Fin 1) : theta_hatQ thetasArm0 m = 0 := by
  rw [theta_hatQ_two,
    show thetasArm0 0 m = 1/2 from rfl, show thetasArm0 1 m = 1/4 from rfl,
    if_neg (by norm_num)]

theorem thetasArm1_hat (m : Fin 1) : theta_hatQ thetasArm1 m = 1 := by
  rw [theta_hatQ_two,
    show thetasArm1 0 m = 0 from rfl, show thetasArm1 1 m = 1 from rfl,
    if_pos (by norm_num)]

theorem thetasArm0_opt0 : optSet thetasArm0 0 = Finset.univ := by
  rw [optSet]
  exact Finset.filter_eq_self.mpr (fun m _ => thetasArm0_hat m)

theorem thetasArm0_opt1 : optSet thetasArm0 1 = ∅ := by
  rw [optSet]
  refine Finset.filter_false_of_mem (fun m _ => ?_)
  rw [thetasArm0_hat m]
  decide

theorem thetasArm1_opt0 : optSet thetasArm1 0 = ∅ := by
  rw [optSet]
  refine Finset.filter_false_of_mem (fun m _ => ?_)
  rw [thetasArm1_hat m]
  decide

theorem thetasArm1_opt1 : optSet thetasArm1 1 = Finset.univ := by
  rw [optSet]
  exact Finset.filter_eq_self.mpr (fun m _ => thetasArm1_hat m)

theorem thetasArm0_pa : paEntry thetasArm0 0 = 1 ∧ paEntry thetasArm0 1 = 0 := by
  constructor
  · rw [paEntry, thetasArm0_opt0]
    norm_num [Finset.card_univ]
  · rw [paEntry, thetasArm0_opt1]
    norm_num

theorem thetasArm1_pa : paEntry thetasArm1 0 = 0 ∧ paEntry thetasArm1 1 = 1 := by
  constructor
  · rw [paEntry, thetasArm1_opt0]
    norm_num
  · rw [paEntry, thetasArm1_opt1]
    norm_num [Finset.card_univ]

theorem thetasArm0_pa_max (p0 : Fin 2 → ℚ) :
    maxQ (computeIDS_pa p0 thetasArm0) = 1 := by
  rw [computeIDS_pa_eval, maxQ_two, thetasArm0_pa.1, thetasArm0_pa.2]
  norm_num

theorem thetasArm1_pa_max (p0 : Fin 2 → ℚ) :
    maxQ (computeIDS_pa p0 thetasArm1) = 1 := by
  rw [computeIDS_pa_eval, maxQ_two, thetasArm1_pa.1, thetasArm1_pa.2]
  norm_num

theorem thetasArm0_pa_argmax (p0 : Fin 2 → ℚ) :
    np_argmax (computeIDS_pa p0 thetasArm0) = 0 := by
  rw [computeIDS_pa_eval, np_argmax_two, thetasArm0_pa.1, thetasArm0_pa.2,
    if_neg (by norm_num)]

theorem thetasArm1_pa_argmax (p0 : Fin 2 → ℚ) :
    np_argmax (computeIDS_pa p0 thetasArm1) = 1 := by
  rw [computeIDS_pa_eval, np_argmax_two, thetasArm1_pa.1, thetasArm1_pa.2,
    if_pos (by norm_num)]

/-- computeIDS locks on the arm-0 bank: max p_a = 1 meets the non-strict
threshold check, so arm 0 is returned with optimal_arm set and no ratio
computed. -/
theorem computeIDS_thetasArm0 (vids : Bool) (chooseO : Fin 2)
    (cur_oa : Option (Fin 2)) (Maap0 : Fin 2 × Fin 2 → ℚ) (p0 : Fin 2 → ℚ) :
    computeIDS vids chooseO cur_oa Maap0 p0 thetasArm0
      = ⟨0, computeIDS_Maap Maap0 thetasArm0, computeIDS_pa p0 thetasArm0,
          some 0, false⟩ := by
  rw [computeIDS, if_pos (by rw [thetasArm0_pa_max]; rw [threshold]; norm_num),
    thetasArm0_pa_argmax]

/-- computeIDS locks on the arm-1 bank: arm 1 is returned with
optimal_arm set and no ratio computed. -/
theorem computeIDS_thetasArm1 (vids : Bool) (chooseO : Fin 2)
    (cur_oa : Option (Fin 2)) (Maap0 : Fin 2 × Fin 2 → ℚ) (p0 : Fin 2 → ℚ) :
    computeIDS vids chooseO cur_oa Maap0 p0 thetasArm1
      = ⟨1, computeIDS_Maap Maap0 thetasArm1, computeIDS_pa p0 thetasArm1,
          some 1, false⟩ := by
  rw [computeIDS, if_pos (by rw [thetasArm1_pa_max]; rw [threshold]; norm_num),
    thetasArm1_pa_argmax]

/-- C9. When no draw attributes optimality to arm a (the subset selected
by np.where(theta_hat == a) is empty), the NaN produced by the mean of an
empty slice is substituted by exactly 0 in every Maap entry of column a,
p_a[a] is exactly 0, and computeIDS still returns a well-defined result
carrying those zeros (the embedding is a total function: the NaN is
resolved locally, never raised). -/
theorem C9_empty_subset_zero {K M : ℕ} [NeZero K] (thetas : Fin K → Fin M → ℚ)
    (a : Fin K) (h : optSet thetas a = ∅) :
    (∀ ap, MaapEntry thetas ap a = 0)
    ∧ paEntry thetas a = 0
    ∧ (∀ (vids : Bool) (chooseO : Fin K) (cur_oa : Option (Fin K))
        (Maap0 : Fin K × Fin K → ℚ) (p0 : Fin K → ℚ) (ap : Fin K),
        (computeIDS vids chooseO cur_oa Maap0 p0 thetas).Maap (ap, a) = 0
        ∧ (computeIDS vids chooseO cur_oa Maap0 p0 thetas).p_a a = 0) := by
  have hM : ∀ ap, MaapEntry thetas ap a = 0 := by
    intro ap
    rw [MaapEntry, if_pos (by rw [h, Finset.card_empty])]
  have hp : paEntry thetas a = 0 := by
    rw [paEntry, h, Finset.card_empty]
    norm_num
  refine ⟨hM, hp, ?_⟩
  intro vids chooseO cur_oa Maap0 p0 ap
  constructor
  · rw [computeIDS_Maap_proj, computeIDS_Maap_eval]
    exact hM ap
  · rw [computeIDS_pa_proj, computeIDS_pa_eval]
    exact hp

/-- C9 (witness): with one draw per arm in which arm 0 always wins, arm 1
is never empirically optimal, its optimality subset is empty, and the
theorem applies. -/
theorem C9_empty_subset_zero_witness :
    optSet thetasArm0 1 = ∅
    ∧ ((∀ ap, MaapEntry thetasArm0 ap 1 = 0)
      ∧ paEntry thetasArm0 1 = 0
      ∧ (∀ (vids : Bool) (chooseO : Fin 2) (cur_oa : Option (Fin 2))
          (Maap0 : Fin 2 × Fin 2 → ℚ) (p0 : Fin 2 → ℚ) (ap : Fin 2),
          (computeIDS vids chooseO cur_oa Maap0 p0 thetasArm0).Maap (ap, 1) = 0
          ∧ (computeIDS vids chooseO cur_oa Maap0 p0 thetasArm0).p_a 1 = 0)) :=
  ⟨thetasArm0_opt1, C9_empty_subset_zero thetasArm0 1 thetasArm0_opt1⟩

/-- C10. First, the arrays handed to computeIDS are fully overwritten:
after the call the caller's Maap and p_a arrays hold exactly the freshly
computed entries, independent of their previous contents (the in-place
mutation is total). Second, whenever the recomputed p_a has maximum at
least the threshold, computeIDS returns np.argmax(p_a), assigns
self.optimal_arm to that argmax as a side effect, and skips the delta / g
computation. Third, computeIDS does not set self.flag: in the round of
IDS_sample that invokes it the flag stays false even when computeIDS has
just locked; the caller only sets the flag on a later round from the
stored p_a. -/
theorem C10_computeIDS_inplace_lock :
    (∀ (K M : ℕ) [NeZero K] (Maap0 Maap1 : Fin K × Fin K → ℚ)
        (p0 p1 : Fin K → ℚ) (thetas : Fin K → Fin M → ℚ),
      computeIDS_Maap Maap0 thetas = (fun pr => MaapEntry thetas pr.1 pr.2)
      ∧ computeIDS_pa p0 thetas = (fun a => paEntry thetas a)
      ∧ computeIDS_Maap Maap0 thetas = computeIDS_Maap Maap1 thetas
      ∧ computeIDS_pa p0 thetas = computeIDS_pa p1 thetas)
    ∧ (∀ (K M : ℕ) [NeZero K] (vids : Bool) (chooseO : Fin K)
        (cur_oa : Option (Fin K)) (Maap0 : Fin K × Fin K → ℚ) (p0 : Fin K → ℚ)
        (thetas : Fin K → Fin M → ℚ),
      threshold ≤ maxQ (computeIDS_pa p0 thetas) →
        (computeIDS vids chooseO cur_oa Maap0 p0 thetas).arm
            = np_argmax (computeIDS_pa p0 thetas)
        ∧ (computeIDS vids chooseO cur_oa Maap0 p0 thetas).optimal_arm
            = some (np_argmax (computeIDS_pa p0 thetas))
        ∧ (computeIDS vids chooseO cur_oa Maap0 p0 thetas).computedRatio = false)
    ∧ (∀ (K M : ℕ) [NeZero K] (vids : Bool) (chooseO : ℕ → Fin K)
        (rewardO : ℕ → Bool) (thetaO : ℕ → Fin M → ℚ) (t : ℕ)
        (s : SampleState K M),
      s.flag = false → maxQ s.p_a < threshold →
        (sample_step vids chooseO rewardO thetaO t s).flag = false
        ∧ (sample_step vids chooseO rewardO thetaO t s).Maap
            = computeIDS_Maap s.Maap s.thetas
        ∧ (sample_step vids chooseO rewardO thetaO t s).p_a
            = computeIDS_pa s.p_a s.thetas
        ∧ (sample_step vids chooseO rewardO thetaO t s).optimal_arm
            = (computeIDS vids (chooseO t) s.optimal_arm s.Maap s.p_a
                s.thetas).optimal_arm) := by
  refine ⟨?_, ?_, ?_⟩
  · intro K M inst Maap0 Maap1 p0 p1 thetas
    refine ⟨computeIDS_Maap_eval Maap0 thetas, computeIDS_pa_eval p0 thetas, ?_, ?_⟩
    · rw [computeIDS_Maap_eval, computeIDS_Maap_eval]
    · rw [computeIDS_pa_eval, computeIDS_pa_eval]
  · intro K M inst vids chooseO cur_oa Maap0 p0 thetas h
    rw [computeIDS, if_pos h]
    exact ⟨rfl, rfl, rfl⟩
  · intro K M inst vids chooseO rewardO thetaO t s hflag hmax
    rw [sample_step, if_neg (by rw [hflag]; exact Bool.false_ne_true),
      if_neg (not_le.mpr hmax)]
    exact ⟨rfl, computeIDS_Maap_proj vids (chooseO t) s.optimal_arm s.Maap s.p_a
        s.thetas,
      computeIDS_pa_proj vids (chooseO t) s.optimal_arm s.Maap s.p_a s.thetas, rfl⟩

/-- A concrete unlocked IDS_sample round state holding the arm-0 bank. -/
def sC10 : SampleState 2 1 where
  beta1 := fun _ => 1
  beta2 := fun _ => 1
  thetas := thetasArm0
  Maap := fun _ => 0
  p_a := fun _ => 0
  flag := false
  optimal_arm := none
  idsCalls := 0
  armSeq := []

/-- C10 (witness): all three parts apply on the arm-0 bank, where the
recomputed p_a is (1, 0) and its maximum 1 meets the threshold. -/
theorem C10_computeIDS_inplace_lock_witness :
    (computeIDS_Maap (fun _ => 0) thetasArm0
        = (fun pr => MaapEntry thetasArm0 pr.1 pr.2))
    ∧ (threshold ≤ maxQ (computeIDS_pa (fun _ => 0) thetasArm0)
      ∧ (computeIDS false 0 none (fun _ => 0) (fun _ => 0) thetasArm0).arm
          = np_argmax (computeIDS_pa (fun _ => 0) thetasArm0)
      ∧ (computeIDS false 0 none (fun _ => 0) (fun _ => 0)
          thetasArm0).computedRatio = false)
    ∧ (sC10.flag = false ∧ maxQ sC10.p_a < threshold
      ∧ (sample_step false (fun _ => 0) (fun _ => false) (fun _ _ => 0) 0
          sC10).flag = false
      ∧ (sample_step false (fun _ => 0) (fun _ => false) (fun _ _ => 0) 0
          sC10).Maap = computeIDS_Maap sC10.Maap sC10.thetas) := by
  have hth : threshold ≤ maxQ (computeIDS_pa (fun _ => (0 : ℚ)) thetasArm0) := by
    rw [thetasArm0_pa_max, threshold]
    norm_num
  have hmax : maxQ sC10.p_a < threshold := by
    show maxQ (fun _ => (0 : ℚ)) < threshold
    rw [maxQ_two, threshold]
    norm_num
  have h2 := (C10_computeIDS_inplace_lock.2.1 2 1 false 0 none (fun _ => 0)
    (fun _ => 0) thetasArm0 hth)
  have h3 := (C10_computeIDS_inplace_lock.2.2 2 1 false (fun _ => 0)
    (fun _ => false) (fun _ _ => 0) 0 sC10 rfl hmax)
  exact ⟨(C10_computeIDS_inplace_lock.1 2 1 (fun _ => 0) (fun _ => 0)
      (fun _ => 0) (fun _ => 0) thetasArm0).1,
    ⟨hth, h2.1, h2.2.2⟩, ⟨rfl, hmax, h3.1, h3.2.1⟩⟩

/-- The run-local state built at the top of IDS_approx: fresh bookkeeping
(init_lists), a grid freshly built by init_approx from the caller-supplied
prior parameter arrays, a zero p_star vector, an empty history (lastArm is
a dummy until the first pull is recorded), and the lock-in fields taken
from the object, which the entry point does NOT reset (lines 132-141 of
the source never write self.flag or self.optimal_arm before the loop). -/
def approx_entry {K : ℕ} (N : ℕ) [NeZero K] (obj : ObjState K)
    (b1 b2 : Fin K → ℕ) : ApproxState K N where
  beta1 := b1
  beta2 := b2
  grid := init_approx K N b1 b2
  p_star := fun _ => 0
  flag := obj.flag
  optimal_arm := obj.optimal_arm
  irCalls := 0
  lastArm := i0 K
  armSeq := []

/-- A first call to IDS_sample on a freshly constructed object: two
rounds, M = 1, the initial bank makes arm 0 empirically optimal. -/
def run1C8 : ℕ → SampleState 2 1 :=
  sample_run false (fun _ => 0) (fun _ => false) (fun _ _ => 0) (initObj 2)
    thetasArm0

/-- A second entry-point call on the same object, whose lock-in state is
whatever the first run left behind; the fresh initial bank now makes arm
1 empirically optimal. -/
def run2LockedC8 : ℕ → SampleState 2 1 :=
  sample_run false (fun _ => 0) (fun _ => false) (fun _ _ => 0)
    (objAfter (run1C8 2)) thetasArm1

/-- A subsequent IDS_approx entry-point call on the same object, with the
uniform prior and one grid point. -/
def run2ApproxC8 : ℕ → ApproxState 2 1 :=
  approx_run (fun _ => 0) (fun _ => false)
    (approx_entry 1 (objAfter (run1C8 2)) (fun _ => 1) (fun _ => 1))

/-- The same second call, but issued on a freshly constructed object. -/
def runFreshC8 : ℕ → SampleState 2 1 :=
  sample_run false (fun _ => 0) (fun _ => false) (fun _ _ => 0) (initObj 2)
    thetasArm1

/-- C8 (counterexample). The first run ends with self.flag = true (lock-in
happened). A subsequent entry-point call on the same object does NOT
begin unlocked: a second IDS_sample call pulls the previously locked arm 0
without a single computeIDS call, whereas the identical call on a fresh
object invokes computeIDS once and pulls arm 1; an IDS_approx call on the
same object likewise pulls the locked arm 0 without invoking IR_approx.
The lock-in decision of one run therefore determines arm selection in
subsequent runs on the same object, through either entry point, refuting
the claim that every call begins in the unlocked state. -/
theorem C8_lock_persists_counterexample :
    (run1C8 2).flag = true
    ∧ (run2LockedC8 1).armSeq = [0]
    ∧ (run2LockedC8 1).idsCalls = 0
    ∧ (run2ApproxC8 1).armSeq = [0]
    ∧ (run2ApproxC8 1).irCalls = 0
    ∧ (runFreshC8 1).armSeq = [1]
    ∧ (runFreshC8 1).idsCalls = 1 := by
  have hza : ¬ (threshold ≤ maxQ (fun _ : Fin 2 => (0 : ℚ))) := by
    rw [maxQ_two, threshold]
    norm_num
  have e1 : run1C8 1
      = sample_post (fun _ => false) (fun _ _ => 0) 0
          (sample_entry (initObj 2) thetasArm0) false (some 0) 0
          (computeIDS_Maap (fun _ => 0) thetasArm0)
          (computeIDS_pa (fun _ => 0) thetasArm0) 1 := by
    show sample_step false (fun _ => 0) (fun _ => false) (fun _ _ => 0) 0
      (sample_entry (initObj 2) thetasArm0) = _
    rw [sample_step, if_neg (by exact Bool.false_ne_true),
      if_neg (show ¬ (threshold ≤ maxQ (sample_entry (initObj 2)
        thetasArm0).p_a) from hza)]
    simp only [sample_entry]
    rw [computeIDS_thetasArm0]
  have e1flag : (run1C8 1).flag = false := by
    rw [e1]
    rfl
  have e1pa : (run1C8 1).p_a = computeIDS_pa (fun _ => 0) thetasArm0 := by
    rw [e1]
    rfl
  have e1oa : (run1C8 1).optimal_arm = some 0 := by
    rw [e1]
    rfl
  have hmax1 : threshold ≤ maxQ (run1C8 1).p_a := by
    rw [e1pa, thetasArm0_pa_max, threshold]
    norm_num
  have e2 : run1C8 2
      = sample_post (fun _ => false) (fun _ _ => 0) 1 (run1C8 1) true
          (run1C8 1).optimal_arm ((run1C8 1).optimal_arm.getD (i0 2))
          (run1C8 1).Maap (run1C8 1).p_a (run1C8 1).idsCalls := by
    show sample_step false (fun _ => 0) (fun _ => false) (fun _ _ => 0) 1
      (run1C8 1) = _
    rw [sample_step, if_neg (by rw [e1flag]; exact Bool.false_ne_true),
      if_pos hmax1]
  have e2flag : (run1C8 2).flag = true := by
    rw [e2]
    rfl
  have e2oa : (run1C8 2).optimal_arm = some 0 := by
    rw [e2]
    show (run1C8 1).optimal_arm = some 0
    exact e1oa
  have hobj : objAfter (run1C8 2) = ⟨true, some 0⟩ := by
    show (⟨(run1C8 2).flag, (run1C8 2).optimal_arm⟩ : ObjState 2) = _
    rw [e2flag, e2oa]
  have hLflag : (sample_entry (objAfter (run1C8 2)) thetasArm1
      (M := 1)).flag = true := by
    show (objAfter (run1C8 2)).flag = true
    rw [hobj]
  have eL : run2LockedC8 1
      = sample_post (fun _ => false) (fun _ _ => 0) 0
          (sample_entry (objAfter (run1C8 2)) thetasArm1) true
          (sample_entry (objAfter (run1C8 2)) thetasArm1).optimal_arm
          ((sample_entry (objAfter (run1C8 2)) thetasArm1).optimal_arm.getD (i0 2))
          (sample_entry (objAfter (run1C8 2)) thetasArm1).Maap
          (sample_entry (objAfter (run1C8 2)) thetasArm1).p_a
          (sample_entry (objAfter (run1C8 2)) thetasArm1).idsCalls := by
    show sample_step false (fun _ => 0) (fun _ => false) (fun _ _ => 0) 0
      (sample_entry (objAfter (run1C8 2)) thetasArm1) = _
    exact sample_step_locked false (fun _ => 0) (fun _ => false) (fun _ _ => 0) 0
      (sample_entry (objAfter (run1C8 2)) thetasArm1) hLflag
  have eLoa : (sample_entry (objAfter (run1C8 2)) thetasArm1
      (M := 1)).optimal_arm = some 0 := by
    show (objAfter (run1C8 2)).optimal_arm = some 0
    rw [hobj]
  have eLseq : (run2LockedC8 1).armSeq = [0] := by
    rw [eL]
    show [] ++ [(sample_entry (objAfter (run1C8 2)) thetasArm1).optimal_arm.getD
      (i0 2)] = [0]
    rw [eLoa]
    rfl
  have eLcalls : (run2LockedC8 1).idsCalls = 0 := by
    rw [eL]
    rfl
  have hAflag : (approx_entry 1 (objAfter (run1C8 2)) (fun _ => 1)
      (fun _ => 1) : ApproxState 2 1).flag = true := by
    show (objAfter (run1C8 2)).flag = true
    rw [hobj]
  have eA : run2ApproxC8 1
      = approx_post (fun _ => false) 0
          (approx_entry 1 (objAfter (run1C8 2)) (fun _ => 1) (fun _ => 1)) true
          (approx_entry 1 (objAfter (run1C8 2)) (fun _ => 1)
            (fun _ => 1)).optimal_arm
          ((approx_entry 1 (objAfter (run1C8 2)) (fun _ => 1)
            (fun _ => 1)).optimal_arm.getD (i0 2))
          (approx_entry 1 (objAfter (run1C8 2)) (fun _ => 1)
            (fun _ => 1)).p_star
          (approx_entry 1 (objAfter (run1C8 2)) (fun _ => 1)
            (fun _ => 1)).irCalls := by
    show approx_step (fun _ => 0) (fun _ => false) 0
      (approx_entry 1 (objAfter (run1C8 2)) (fun _ => 1) (fun _ => 1)) = _
    exact approx_step_locked (fun _ => 0) (fun _ => false) 0
      (approx_entry 1 (objAfter (run1C8 2)) (fun _ => 1) (fun _ => 1)) hAflag
  have eAoa : (approx_entry 1 (objAfter (run1C8 2)) (fun _ => 1)
      (fun _ => 1) : ApproxState 2 1).optimal_arm = some 0 := by
    show (objAfter (run1C8 2)).optimal_arm = some 0
    rw [hobj]
  have eAseq : (run2ApproxC8 1).armSeq = [0] := by
    rw [eA]
    show [] ++ [(approx_entry 1 (objAfter (run1C8 2)) (fun _ => 1)
      (fun _ => 1) : ApproxState 2 1).optimal_arm.getD (i0 2)] = [0]
    rw [eAoa]
    rfl
  have eAcalls : (run2ApproxC8 1).irCalls = 0 := by
    rw [eA]
    rfl
  have eF : runFreshC8 1
      = sample_post (fun _ => false) (fun _ _ => 0) 0
          (sample_entry (initObj 2) thetasArm1) false (some 1) 1
          (computeIDS_Maap (fun _ => 0) thetasArm1)
          (computeIDS_pa (fun _ => 0) thetasArm1) 1 := by
    show sample_step false (fun _ => 0) (fun _ => false) (fun _ _ => 0) 0
      (sample_entry (initObj 2) thetasArm1) = _
    rw [sample_step, if_neg (by exact Bool.false_ne_true),
      if_neg (show ¬ (threshold ≤ maxQ (sample_entry (initObj 2)
        thetasArm1).p_a) from hza)]
    simp only [sample_entry]
    rw [computeIDS_thetasArm1]
  have eFseq : (runFreshC8 1).armSeq = [1] := by
    rw [eF]
    rfl
  have eFcalls : (runFreshC8 1).idsCalls = 1 := by
    rw [eF]
    rfl
  exact ⟨e2flag, eLseq, eLcalls, eAseq, eAcalls, eFseq, eFcalls⟩

/-- C8 (amended). The lock-in fields are initialized only by the
constructor (flag = false, optimal_arm = None) and are NOT reset by any
of the entry points: the run-local state of IDS_sample / VIDS_sample and
of IDS_approx alike starts with whatever lock-in state the object
carries. Consequently lock-in persists across runs on the same object: a
run started on an already-locked object pulls the stored optimal arm in
every round and never invokes the estimator, through either entry point;
only the first run on a freshly constructed object is guaranteed to
begin unlocked. -/
theorem C8_lock_persists_amended :
    (∀ K : ℕ, (initObj K).flag = false ∧ (initObj K).optimal_arm = none)
    ∧ (∀ (vids : Bool) (K M : ℕ) [NeZero K] (chooseO : ℕ → Fin K)
        (rewardO : ℕ → Bool) (thetaO : ℕ → Fin M → ℚ) (obj : ObjState K)
        (theta0 : Fin K → Fin M → ℚ),
      (sample_run vids chooseO rewardO thetaO obj theta0 0).flag = obj.flag
      ∧ (sample_run vids chooseO rewardO thetaO obj theta0 0).optimal_arm
          = obj.optimal_arm
      ∧ (obj.flag = true → ∀ n : ℕ,
          (sample_run vids chooseO rewardO thetaO obj theta0 n).flag = true
          ∧ (sample_run vids chooseO rewardO thetaO obj theta0 n).optimal_arm
              = obj.optimal_arm
          ∧ (sample_run vids chooseO rewardO thetaO obj theta0 n).idsCalls = 0
          ∧ (sample_run vids chooseO rewardO thetaO obj theta0 (n + 1)).armSeq
              = (sample_run vids chooseO rewardO thetaO obj theta0 n).armSeq
                ++ [obj.optimal_arm.getD (i0 K)]))
    ∧ (∀ (K N : ℕ) [NeZero K] (chooseO : ℕ → Fin K) (rewardO : ℕ → Bool)
        (obj : ObjState K) (b1 b2 : Fin K → ℕ),
      (approx_run chooseO rewardO (approx_entry N obj b1 b2) 0).flag = obj.flag
      ∧ (approx_run chooseO rewardO (approx_entry N obj b1 b2) 0).optimal_arm
          = obj.optimal_arm
      ∧ (obj.flag = true → ∀ n : ℕ,
          (approx_run chooseO rewardO (approx_entry N obj b1 b2) n).flag = true
          ∧ (approx_run chooseO rewardO (approx_entry N obj b1 b2) n).optimal_arm
              = obj.optimal_arm
          ∧ (approx_run chooseO rewardO (approx_entry N obj b1 b2) n).irCalls = 0
          ∧ (approx_run chooseO rewardO (approx_entry N obj b1 b2) (n + 1)).armSeq
              = (approx_run chooseO rewardO (approx_entry N obj b1 b2) n).armSeq
                ++ [obj.optimal_arm.getD (i0 K)])) := by
  refine ⟨fun K => ⟨rfl, rfl⟩, ?_, ?_⟩
  · intro vids K M inst chooseO rewardO thetaO obj theta0
    refine ⟨rfl, rfl, fun hflag n => ?_⟩
    have h0 : (sample_run vids chooseO rewardO thetaO obj theta0 0).flag = true :=
      hflag
    have h := sample_run_locked_from vids chooseO rewardO thetaO obj theta0 0 h0 n
    simp only [Nat.zero_add] at h
    obtain ⟨hf, hoa, hic, hseq⟩ := h
    exact ⟨hf, hoa, hic, hseq⟩
  · intro K N inst chooseO rewardO obj b1 b2
    refine ⟨rfl, rfl, fun hflag n => ?_⟩
    have h0 : (approx_run chooseO rewardO (approx_entry N obj b1 b2) 0).flag
        = true := hflag
    have h := approx_run_locked_from chooseO rewardO (approx_entry N obj b1 b2)
      0 h0 n
    simp only [Nat.zero_add] at h
    obtain ⟨hf, hoa, hic, hseq⟩ := h
    exact ⟨hf, hoa, hic, hseq⟩

/-- A concrete already-locked two-arm object. -/
def obj8 : ObjState 2 := ⟨true, some 1⟩

/-- C8 (witness for the amended theorem): both an IDS_sample run and an
IDS_approx run on the locked object obj8 pull arm 1 forever and never
call the estimator. -/
theorem C8_lock_persists_amended_witness :
    obj8.flag = true
    ∧ ((sample_run false (fun _ => 0) (fun _ => false) (fun _ _ => (0 : ℚ)) obj8
          thetasArm1 (M := 1) 1).flag = true
      ∧ (sample_run false (fun _ => 0) (fun _ => false) (fun _ _ => (0 : ℚ)) obj8
          thetasArm1 (M := 1) 1).optimal_arm = obj8.optimal_arm
      ∧ (sample_run false (fun _ => 0) (fun _ => false) (fun _ _ => (0 : ℚ)) obj8
          thetasArm1 (M := 1) 1).idsCalls = 0
      ∧ (sample_run false (fun _ => 0) (fun _ => false) (fun _ _ => (0 : ℚ)) obj8
          thetasArm1 (M := 1) (1 + 1)).armSeq
          = (sample_run false (fun _ => 0) (fun _ => false) (fun _ _ => (0 : ℚ)) obj8
              thetasArm1 (M := 1) 1).armSeq ++ [obj8.optimal_arm.getD (i0 2)])
    ∧ ((approx_run (fun _ => 0) (fun _ => false)
          (approx_entry 1 obj8 (fun _ => 1) (fun _ => 1)) 1).flag = true
      ∧ (approx_run (fun _ => 0) (fun _ => false)
          (approx_entry 1 obj8 (fun _ => 1) (fun _ => 1)) 1).optimal_arm
          = obj8.optimal_arm
      ∧ (approx_run (fun _ => 0) (fun _ => false)
          (approx_entry 1 obj8 (fun _ => 1) (fun _ => 1)) 1).irCalls = 0
      ∧ (approx_run (fun _ => 0) (fun _ => false)
          (approx_entry 1 obj8 (fun _ => 1) (fun _ => 1)) (1 + 1)).armSeq
          = (approx_run (fun _ => 0) (fun _ => false)
              (approx_entry 1 obj8 (fun _ => 1) (fun _ => 1)) 1).armSeq
            ++ [obj8.optimal_arm.getD (i0 2)]) :=
  ⟨rfl,
    (C8_lock_persists_amended.2.1 false 2 1 (fun _ => 0) (fun _ => false)
      (fun _ _ => (0 : ℚ)) obj8 thetasArm1).2.2 rfl 1,
    (C8_lock_persists_amended.2.2 2 1 (fun _ => 0) (fun _ => false) obj8
      (fun _ => 1) (fun _ => 1)).2.2 rfl 1⟩

end BernoulliMAB
